import Mathlib

/-!
A verification development for the slowapi rate-limiting engine.

The definitions below are a shallow embedding of the repository sources
(`slowapi/extension.py`, `slowapi/wrappers.py`, `slowapi/middleware.py`,
`slowapi/errors.py`).  Python callables that the engine dispatches on by
signature inspection are carried as tagged variants; exceptions are carried
as `Except`/`Option` results; the mutable engine state (storage-health
fields, per-request state, the per-route registries) is threaded
explicitly.  The counting backend and the limit-string parser live in the
external `limits` package and are modelled from the specification where
noted.
-/

namespace Slowapi

/-- An HTTP request as the engine sees it: the matched path (`request["path"]`),
the HTTP method in uppercase as exposed by the framework, and the client
identity data that key functions read. -/
structure Request where
  path : String
  method : String
  client : String
deriving DecidableEq

/-- A key-derivation callable.  The source inspects the Python signature for a
parameter literally named "request" (extension.py:496, wrappers.py:86-89); the
constructor carries that distinction. -/
inductive KeyFunc where
  | withRequest (f : Request → String)
  | noArg (f : Unit → String)

/-- Whether the callable declares a "request" parameter
(`"request" in inspect.signature(f).parameters.keys()`). -/
def KeyFunc.hasRequestParam : KeyFunc → Bool
  | .withRequest _ => true
  | .noArg _ => false

/-- extension.py:496-499: call the key function with the request when its
signature declares one, with no arguments otherwise. -/
def KeyFunc.callOn : KeyFunc → Request → String
  | .withRequest f, r => f r
  | .noArg f, _ => f ()

/-- The time granularity of a rate-limit descriptor. -/
inductive Granularity where
  | second
  | minute
  | hour
  | day
deriving DecidableEq

def Granularity.seconds : Granularity → Nat
  | .second => 1
  | .minute => 60
  | .hour => 3600
  | .day => 86400

/-- Modelled from the spec: §3 RateLimitDescriptor.  The descriptor type lives
in the external `limits` package (`limits.RateLimitItem`), not under the
repository sources: `amount`, `multiples` (default 1) and the period.  Per
§4.1 the literal "exempt" is a reserved pass-always descriptor; we carry that
as a flag. -/
structure RateLimitItem where
  amount : Nat
  multiples : Nat
  gran : Granularity
  exemptFlag : Bool
deriving DecidableEq

/-- Modelled from the spec: §4.1 — the descriptor produced by the reserved
literal "exempt". -/
def exemptItem : RateLimitItem := ⟨1, 1, .second, true⟩

/-- ASCII lowercase of a string, computed structurally on its characters. -/
def lowerStr (s : String) : String := ⟨s.data.map Char.toLower⟩

/-- Split a character list on a separator (like `str.split(sep)`). -/
def splitChars (sep : Char) : List Char → List (List Char)
  | [] => [[]]
  | c :: cs =>
      let r := splitChars sep cs
      if c = sep then [] :: r
      else
        match r with
        | [] => [[c]]
        | w :: ws => (c :: w) :: ws

/-- Strip leading and trailing spaces. -/
def trimChars (l : List Char) : List Char :=
  ((l.dropWhile (fun c => c = ' ')).reverse.dropWhile (fun c => c = ' ')).reverse

/-- Replace each "/" with " per " (normalising the two clause forms). -/
def slashToPer : List Char → List Char
  | [] => []
  | c :: cs =>
      if c = '/' then ' ' :: 'p' :: 'e' :: 'r' :: ' ' :: slashToPer cs
      else c :: slashToPer cs

def natFromCharsAux : List Char → Nat → Option Nat
  | [], acc => some acc
  | c :: cs, acc =>
      if c.isDigit then natFromCharsAux cs (acc * 10 + (c.toNat - 48)) else none

/-- Parse a non-empty all-digit character list as a natural number. -/
def natFromChars (l : List Char) : Option Nat :=
  if l.isEmpty then none else natFromCharsAux l 0

/-- Parse an optionally-negated digit string as an integer (`int(...)`). -/
def intFromChars (l : List Char) : Option Int :=
  match l with
  | '-' :: rest => (natFromChars rest).map (fun n => -(n : Int))
  | _ => (natFromChars l).map (fun n => (n : Int))

def Granularity.ofChars (l : List Char) : Option Granularity :=
  if l = "second".data || l = "seconds".data then some .second
  else if l = "minute".data || l = "minutes".data then some .minute
  else if l = "hour".data || l = "hours".data then some .hour
  else if l = "day".data || l = "days".data then some .day
  else none

/-- Modelled from the spec: §4.1 — one clause of a limit string:
`"<amount> per <period>"` or `"<amount>/<period>[s]"`, with an optional
integer multiplier (`"<amount> per <multiples> <period>"`), or the reserved
literal `"exempt"`.  The parser itself lives in the external `limits` package
(`limits.parse_many`); `none` models its ValueError. -/
def parseClauseChars (cl : List Char) : Option RateLimitItem :=
  let t := trimChars (cl.map Char.toLower)
  if t = "exempt".data then some exemptItem
  else
    let words := (splitChars ' ' (slashToPer t)).filter (fun w => !w.isEmpty)
    match words with
    | [a, p, g] =>
        if p = "per".data then do
          let amount ← natFromChars a
          let gran ← Granularity.ofChars g
          pure ⟨amount, 1, gran, false⟩
        else none
    | [a, p, m, g] =>
        if p = "per".data then do
          let amount ← natFromChars a
          let mult ← natFromChars m
          let gran ← Granularity.ofChars g
          pure ⟨amount, mult, gran, false⟩
        else none
    | _ => none

/-- Modelled from the spec: §4.1 — a limit string is a ";"-separated list of
clauses; any malformed clause fails the whole parse (ValueError in the
caller). -/
def parse_many (s : String) : Option (List RateLimitItem) :=
  (splitChars ';' s.data).mapM parseClauseChars

/-- A cost that is either a constant or a callable taking the request
(wrappers.py `cost: Union[int, Callable[..., int]]`). -/
inductive CostV where
  | const (n : Nat)
  | fn (f : Request → Nat)

/-- extension.py:508: `lim.cost(request) if callable(lim.cost) else lim.cost`. -/
def CostV.eval : CostV → Request → Nat
  | .const n, _ => n
  | .fn f, r => f r

/-- wrappers.py:7-53 `Limit`: one resolved limit plus its context.  Callable
scopes are not exercised by this development (the source's `scope` property
for the callable case dereferences an undefined global). -/
structure Limit where
  limit : RateLimitItem
  key_func : KeyFunc
  scopeOpt : Option String
  per_method : Bool
  methods : Option (List String)
  error_message : Option String
  exempt_when : Option (Unit → Bool)
  cost : CostV
  override_defaults : Bool

/-- wrappers.py:42-53 `Limit.scope` property: the empty string when no scope
was given. -/
def Limit.scope (l : Limit) : String := l.scopeOpt.getD ""

/-- wrappers.py:34-40 `Limit.is_exempt`. -/
def Limit.is_exempt (l : Limit) : Bool :=
  match l.exempt_when with
  | some f => f ()
  | none => false

/-- The unresolved limit provider of a LimitGroup: a plain string, a callable
with no "key" parameter, or a callable declaring a "key" parameter
(wrappers.py:85-96 dispatches on `callable(...)` and on
`"key" in inspect.signature(...).parameters.keys()`). -/
inductive LimitProvider where
  | str (s : String)
  | fnNoKey (f : Unit → String)
  | fnKey (f : String → String)

def LimitProvider.isCallable : LimitProvider → Bool
  | .str _ => false
  | _ => true

/-- wrappers.py:56-82 `LimitGroup`: an unresolved provider of limits plus the
shared context, and the `request` slot written by `with_request`. -/
structure LimitGroup where
  limit_provider : LimitProvider
  key_function : KeyFunc
  scopeOpt : Option String
  per_method : Bool
  methods : Option (List String)
  error_message : Option String
  exempt_when : Option (Unit → Bool)
  cost : CostV
  override_defaults : Bool
  request : Option Request

/-- wrappers.py:61-82 `LimitGroup.__init__`: lowercases the method list. -/
def mkLimitGroup (p : LimitProvider) (kf : KeyFunc) (scopeOpt : Option String)
    (per_method : Bool) (methods : Option (List String))
    (error_message : Option String) (exempt_when : Option (Unit → Bool))
    (cost : CostV) (override_defaults : Bool) : LimitGroup :=
  ⟨p, kf, scopeOpt, per_method, methods.map (List.map lowerStr),
   error_message, exempt_when, cost, override_defaults, none⟩

/-- The ways resolving a LimitGroup can raise: a parse failure (ValueError
from `parse_many`), the assertion that the key function must take a request
(wrappers.py:87-89), or the missing-request check (wrappers.py:90-91). -/
inductive ResolveErr where
  | parse
  | assertKey
  | noRequest
deriving DecidableEq

/-- wrappers.py:84-109 `LimitGroup.__iter__`: evaluate the provider (with the
resolved key if it declares one, with no arguments if callable, literally
otherwise), parse the string, and yield one Limit per descriptor. -/
def LimitGroup.iter (g : LimitGroup) : Except ResolveErr (List Limit) :=
  let rawE : Except ResolveErr String :=
    match g.limit_provider with
    | .fnKey f =>
        if !g.key_function.hasRequestParam then Except.error ResolveErr.assertKey
        else
          match g.request with
          | none => Except.error ResolveErr.noRequest
          | some req => Except.ok (f (g.key_function.callOn req))
    | .fnNoKey f => Except.ok (f ())
    | .str s => Except.ok s
  match rawE with
  | .error e => Except.error e
  | .ok raw =>
      match parse_many raw with
      | none => Except.error ResolveErr.parse
      | some items =>
          Except.ok (items.map (fun it =>
            ⟨it, g.key_function, g.scopeOpt, g.per_method, g.methods,
             g.error_message, g.exempt_when, g.cost, g.override_defaults⟩))

/-- wrappers.py:111-113 `LimitGroup.with_request`: stores the request on the
group (in place, in the source) and returns it. -/
def LimitGroup.with_request (g : LimitGroup) (r : Request) : LimitGroup :=
  { g with request := some r }

/-- The pluggable counting backend, spec §6: `hit`, `get_window_stats`,
`check`.  A `none` result models a raised exception.  Modelled from the spec:
the storage strategies live in the external `limits` package. -/
structure Backend where
  hit : RateLimitItem → List String → Nat → Option Bool
  get_window_stats : RateLimitItem → List String → Option (Int × Int)
  check : Bool

/-- Modelled from the spec: §4.3 "exempt" — a hit on the pass-always
descriptor always allows and leaves the counters untouched; every other hit
goes to the backend. -/
def doHit (b : Backend) (it : RateLimitItem) (args : List String) (c : Nat) :
    Option Bool :=
  if it.exemptFlag then some true else b.hit it args c

/-- One backend `hit` invocation made by the engine, as recorded in the
evaluation trace. -/
structure HitCall where
  item : RateLimitItem
  args : List String
  cost : Nat
deriving DecidableEq

/-- How many hits of the trace target a given descriptor. -/
def countHits (log : List HitCall) (it : RateLimitItem) : Nat :=
  (log.filter (fun h => h.item == it)).length

/-- What `Limiter.__evaluate_limits` can raise: the RateLimitExceeded carrying
the failing Limit (errors.py:10-27, raised at extension.py:528), or a backend
exception escaping the `hit` call. -/
inductive EvalErr where
  | rle (l : Limit)
  | exn

/-- The outcome of `Limiter.__evaluate_limits`: the trace of backend hit
calls, the value written to `request.state.view_rate_limit` (`none` when the
assignment at extension.py:525 was not reached because `hit` raised), and the
exception raised, if any. -/
structure EvalOut where
  log : List HitCall
  view : Option (Option (RateLimitItem × List String))
  err : Option EvalErr

/-- Modelled from the spec: §3 — the `<` the engine uses when picking the
header limit compares raw amounts (the comparison operator lives on the
external `limits.RateLimitItem`). -/
def itemLt (a b : RateLimitItem) : Bool := a.amount < b.amount

/-- extension.py:488-494: the effective scope of a limit — the explicit scope
or the endpoint key, with `:<METHOD>` appended for per-method limits. -/
def effScope (lim : Limit) (endpoint : String) (req : Request) : String :=
  let scope0 := if lim.scope = "" then endpoint else lim.scope
  if lim.per_method then scope0 ++ ":" ++ req.method else scope0

/-- extension.py:489-523: a limit is skipped (`continue`) when its exemption
predicate holds, when its method list excludes the request method, or when a
key part is empty (`all(args)` fails, logged and skipped). -/
def limSkipped (lim : Limit) (endpoint : String) (req : Request) : Bool :=
  lim.is_exempt ||
  (match lim.methods with
   | some ms => !(ms.contains (lowerStr req.method))
   | none => false) ||
  lim.key_func.callOn req = "" || effScope lim endpoint req = ""

/-- extension.py:501-504: the key parts `[optional prefix, key, scope]`. -/
def limArgs (pfx : String) (lim : Limit) (endpoint : String) (req : Request) :
    List String :=
  if pfx ≠ "" then [pfx, lim.key_func.callOn req, effScope lim endpoint req]
  else [lim.key_func.callOn req, effScope lim endpoint req]

/-- extension.py:505-506: keep the smaller-amount limit as the header
candidate. -/
def accUpdate (acc : Option (RateLimitItem × List String)) (it : RateLimitItem)
    (args : List String) : Option (RateLimitItem × List String) :=
  match acc with
  | none => some (it, args)
  | some (a, aargs) => if itemLt it a then some (it, args) else some (a, aargs)

/-- extension.py:487-523: the body of the `for lim in limits` loop of
`Limiter.__evaluate_limits`, with the `limit_for_header` accumulator `acc`
and the trace `log` of backend hit calls made so far. -/
def evalLoop (b : Backend) (pfx endpoint : String) (req : Request) :
    List Limit → Option (RateLimitItem × List String) → List HitCall → EvalOut
  | [], acc, log => { log := log, view := some acc, err := none }
  | lim :: rest, acc, log =>
    if limSkipped lim endpoint req then evalLoop b pfx endpoint req rest acc log
    else
      match doHit b lim.limit (limArgs pfx lim endpoint req) (lim.cost.eval req) with
      | none =>
          { log := log ++ [⟨lim.limit, limArgs pfx lim endpoint req, lim.cost.eval req⟩],
            view := none, err := some EvalErr.exn }
      | some true =>
          evalLoop b pfx endpoint req rest
            (accUpdate acc lim.limit (limArgs pfx lim endpoint req))
            (log ++ [⟨lim.limit, limArgs pfx lim endpoint req, lim.cost.eval req⟩])
      | some false =>
          { log := log ++ [⟨lim.limit, limArgs pfx lim endpoint req, lim.cost.eval req⟩],
            view := some (some (lim.limit, limArgs pfx lim endpoint req)),
            err := some (EvalErr.rle lim) }

/-- extension.py:482-528 `Limiter.__evaluate_limits`: run the loop, write
`request.state.view_rate_limit` on completion, raise RateLimitExceeded if a
limit failed. -/
def evaluate_limits (b : Backend) (pfx endpoint : String) (req : Request)
    (limits : List Limit) : EvalOut :=
  evalLoop b pfx endpoint req limits none []

/-- The storage-health fields of the Limiter (extension.py:221-225):
`_storage_dead`, `__check_backend_count`, `__last_check_backend`. -/
structure HealthState where
  storage_dead : Bool
  check_backend_count : Nat
  last_check_backend : Nat
deriving DecidableEq

def MAX_BACKEND_CHECKS : Nat := 5

/-- extension.py:345-352 `Limiter.__should_check_backend`, with the clock
passed explicitly. -/
def should_check_backend (st : HealthState) (now : Nat) : Bool × HealthState :=
  let c := if st.check_backend_count > MAX_BACKEND_CHECKS then 0
           else st.check_backend_count
  if now - st.last_check_backend > 2 ^ c then
    (true, { st with last_check_backend := now, check_backend_count := c + 1 })
  else
    (false, { st with check_backend_count := c })

/-- The key-style configuration (extension.py:147 `key_style`). -/
inductive KeyStyle where
  | url
  | endpoint
deriving DecidableEq

/-- The request-scoped state the engine writes:
`request.state.view_rate_limit` (extension.py:525; the outer Option is
whether the attribute was ever assigned) and
`request.state._rate_limiting_complete` (extension.py:729-733). -/
structure RequestState where
  view_rate_limit : Option (Option (RateLimitItem × List String))
  rate_limiting_complete : Bool

/-- The Limiter's configuration and registries (extension.py:129-326).
`in_memory_fallback_enabled` also stands for the presence of
`_fallback_limiter`, which the constructor creates exactly when the flag is
set (extension.py:324-326).  `request_filters` holds the pre-evaluated
results of the zero-argument filter callables. -/
structure Limiter where
  enabled : Bool
  headers_enabled : Bool
  swallow_errors : Bool
  auto_check : Bool
  in_memory_fallback : List LimitGroup
  in_memory_fallback_enabled : Bool
  default_limits : List LimitGroup
  application_limits : List LimitGroup
  route_limits : List (String × List Limit)
  dynamic_route_limits : List (String × List LimitGroup)
  marked_for_limiting : List String
  exempt_routes : List String
  request_filters : List Bool
  pfx : String
  key_style : KeyStyle
  retry_after_style : Option String
  header_limit : String
  header_remaining : String
  header_reset : String
  header_retry_after : String

/-- extension.py:364-375 `Limiter.limiter` property: the fallback strategy
when the storage is dead and the in-memory fallback is enabled, the primary
strategy otherwise. -/
def chooseBackend (L : Limiter) (st : HealthState) (primary fb : Backend) : Backend :=
  if st.storage_dead && L.in_memory_fallback_enabled then fb else primary

/-- extension.py:617-619: `all(not limit.override_defaults for limit in
route_limits)` — vacuously true on an empty list. -/
def combined_defaults (route_limits : List Limit) : Bool :=
  route_limits.all (fun l => !l.override_defaults)

/-- extension.py:620-627: the guard under which `_default_limits` are appended
to the candidate list. -/
def defaults_included (route_limits : List Limit) (in_middleware marked : Bool) :
    Bool :=
  (route_limits.isEmpty && !(in_middleware && marked)) || combined_defaults route_limits

/-- `list(itertools.chain(*groups))` as forced inside the try block: resolve
each group in order; the first exception aborts. -/
def resolveGroups : List LimitGroup → Except ResolveErr (List Limit)
  | [] => Except.ok []
  | g :: gs => do
      let ls ← g.iter
      let rest ← resolveGroups gs
      Except.ok (ls ++ rest)

/-- The outcome of gathering the dynamic limits of an endpoint
(extension.py:586-595): the resolved limits, the group list after the
`with_request` writes, and the exception propagating out, if any. -/
structure DynOut where
  limits : List Limit
  groups : List LimitGroup
  err : Option ResolveErr

/-- extension.py:586-595: for each registered dynamic group, store the request
on it and resolve it; a ValueError (parse failure) is logged and skipped,
any other exception propagates (it is raised before the try block). -/
def gatherDynamic (req : Request) : List LimitGroup → DynOut
  | [] => ⟨[], [], none⟩
  | g :: gs =>
      let g1 := g.with_request req
      match g1.iter with
      | .ok ls =>
          let r := gatherDynamic req gs
          ⟨ls ++ r.limits, g1 :: r.groups, r.err⟩
      | .error .parse =>
          let r := gatherDynamic req gs
          ⟨r.limits, g1 :: r.groups, r.err⟩
      | .error e => ⟨[], g1 :: gs, some e⟩

/-- What the try block of `_check_request_limit` can raise. -/
inductive TryErr where
  | rle (l : Limit)
  | backendExn
  | resolveExn (e : ResolveErr)

/-- The outcome of the try block (extension.py:597-630): the health state
after the dead-storage branch, the hit-call trace, the view written (if the
evaluation completed), and the exception, if any. -/
structure AttemptOut where
  st : HealthState
  log : List HitCall
  view : Option (Option (RateLimitItem × List String))
  err : Option TryErr

/-- extension.py:599-608: the dead-storage branch at the head of the try
block — when the storage is marked dead and a fallback limiter exists, either
defer to the decorator (middleware pass on a marked route), or re-probe the
backend (on success clearing the dead flag and the probe counter), or resolve
the fallback limit list. -/
def deadStorageStep (L : Limiter) (primary : Backend) (now : Nat)
    (in_middleware marked : Bool) (st : HealthState) :
    HealthState × Except ResolveErr (List Limit) :=
  if st.storage_dead && L.in_memory_fallback_enabled then
    if in_middleware && marked then (st, Except.ok [])
    else
      match should_check_backend st now with
      | (probe, st1) =>
        if probe && primary.check then
          ({ st1 with storage_dead := false, check_backend_count := 0 },
           Except.ok [])
        else (st1, resolveGroups L.in_memory_fallback)
  else (st, Except.ok [])

/-- extension.py:597-630: the try block of `_check_request_limit` — the
dead-storage fallback branch with its re-probe, the assembly of the candidate
limit list, and the evaluation. -/
def check_attempt (L : Limiter) (primary fb : Backend) (now : Nat)
    (req : Request) (name endpointKey : String) (in_middleware : Bool)
    (limits dynamic : List Limit) (st : HealthState) : AttemptOut :=
  let marked := L.marked_for_limiting.contains name
  match deadStorageStep L primary now in_middleware marked st with
  | (st1, .error e) => ⟨st1, [], none, some (TryErr.resolveExn e)⟩
  | (st1, .ok fbLims) =>
    let assembled : Except ResolveErr (List Limit) :=
      if fbLims.isEmpty then
        let route := limits ++ dynamic
        match (if in_middleware then resolveGroups L.application_limits
               else Except.ok []) with
        | .error e => .error e
        | .ok app =>
          if defaults_included route in_middleware marked then
            match resolveGroups L.default_limits with
            | .error e => .error e
            | .ok defs => .ok (app ++ route ++ defs)
          else .ok (app ++ route)
      else .ok fbLims
    match assembled with
    | .error e => ⟨st1, [], none, some (TryErr.resolveExn e)⟩
    | .ok all_limits =>
      let b := chooseBackend L st1 primary fb
      let r := evaluate_limits b L.pfx endpointKey req all_limits
      ⟨st1, r.log, r.view,
       r.err.map (fun e => match e with
         | EvalErr.rle l => TryErr.rle l
         | EvalErr.exn => TryErr.backendExn)⟩

/-- What `_check_request_limit` can leave the caller with. `resolveUncaught`
is an exception raised while gathering the dynamic limits, which happens
before the try block and is therefore not subject to the failover/swallow
handler. -/
inductive CheckErr where
  | rle (l : Limit)
  | backendExn
  | resolveCaught (e : ResolveErr)
  | resolveUncaught (e : ResolveErr)
  | outOfFuel

/-- The outcome of `_check_request_limit`: the Limiter (its registries after
the `with_request` writes), the health state, the request state, the combined
hit trace, the exception, and the number of failover retries performed
(instrumentation counting the recursive calls at extension.py:640). -/
structure CheckOut where
  L : Limiter
  st : HealthState
  rstate : RequestState
  log : List HitCall
  err : Option CheckErr
  retries : Nat

/-- Write the evaluation's view into the request state when the evaluation
reached the assignment, leave the state untouched otherwise. -/
def applyView (rs : RequestState) :
    Option (Option (RateLimitItem × List String)) → RequestState
  | some v => { rs with view_rate_limit := some v }
  | none => rs

def toCheckErr : TryErr → CheckErr
  | .rle l => CheckErr.rle l
  | .backendExn => CheckErr.backendExn
  | .resolveExn e => CheckErr.resolveCaught e

/-- extension.py:631-645: the except handler of `_check_request_limit`.
RateLimitExceeded is re-raised; any other exception triggers the failover
retry when the fallback is enabled and the storage is not already marked
dead, and is otherwise swallowed or propagated per `swallow_errors`. -/
def check_finish (retry : HealthState → RequestState → CheckOut) (L1 : Limiter)
    (a : AttemptOut) (rs : RequestState) : CheckOut :=
  match a.err with
  | none => ⟨L1, a.st, applyView rs a.view, a.log, none, 0⟩
  | some (TryErr.rle l) =>
      ⟨L1, a.st, applyView rs a.view, a.log, some (CheckErr.rle l), 0⟩
  | some e =>
      if L1.in_memory_fallback_enabled && !a.st.storage_dead then
        let r := retry { a.st with storage_dead := true } (applyView rs a.view)
        ⟨r.L, r.st, r.rstate, a.log ++ r.log, r.err, r.retries + 1⟩
      else if L1.swallow_errors then
        ⟨L1, a.st, applyView rs a.view, a.log, none, 0⟩
      else
        ⟨L1, a.st, applyView rs a.view, a.log, some (toCheckErr e), 0⟩

/-- Replace the group list stored under a key. -/
def updateEntry (m : List (String × List LimitGroup)) (k : String)
    (v : List LimitGroup) : List (String × List LimitGroup) :=
  m.map (fun p => if p.1 = k then (p.1, v) else p)

/-- extension.py:559-565: the endpoint key under the configured key style —
the request path for "url", the handler's dotted name for "endpoint". -/
def endpointKeyOf (L : Limiter) (req : Request) (name : String) : String :=
  match L.key_style with
  | .url => req.path
  | .endpoint => name

/-- extension.py:550-645 `Limiter._check_request_limit`.  `endpoint_func` is
the handler's dotted name (`f"{module}.{name}"`), `none` when no handler was
passed.  The fuel bounds the failover recursion; the source recursion
(extension.py:640) is reproduced through `check_finish`. -/
def check_request_limit (fuel : Nat) (L : Limiter) (primary fb : Backend)
    (now : Nat) (req : Request) (endpoint_func : Option String)
    (in_middleware : Bool) (st : HealthState) (rs : RequestState) : CheckOut :=
  match fuel with
  | 0 => ⟨L, st, rs, [], some CheckErr.outOfFuel, 0⟩
  | fuel + 1 =>
    let name := endpoint_func.getD ""
    let endpointKey := endpointKeyOf L req name
    if endpointKey = "" || !L.enabled || L.exempt_routes.contains name
        || L.request_filters.any id then
      ⟨L, st, rs, [], none, 0⟩
    else if in_middleware then
      let a := check_attempt L primary fb now req name endpointKey true [] [] st
      check_finish
        (fun st2 rs2 =>
          check_request_limit fuel L primary fb now req endpoint_func true st2 rs2)
        L a rs
    else
      let limits := (L.route_limits.lookup name).getD []
      let dyn := gatherDynamic req ((L.dynamic_route_limits.lookup name).getD [])
      let L1 := { L with
        dynamic_route_limits := updateEntry L.dynamic_route_limits name dyn.groups }
      match dyn.err with
      | some e => ⟨L1, st, rs, [], some (CheckErr.resolveUncaught e), 0⟩
      | none =>
        let a := check_attempt L1 primary fb now req name endpointKey false
                   limits dyn.limits st
        check_finish
          (fun st2 rs2 =>
            check_request_limit fuel L1 primary fb now req endpoint_func false st2 rs2)
          L1 a rs

/-- Decoration-time failure: the handler has no "request" or "websocket"
parameter (extension.py:712-715). -/
inductive DecErr where
  | noRequestArg
deriving DecidableEq

/-- `dict.setdefault(k, []).extend(vs)` / `.append(v)`. -/
def appendEntry {α : Type} (m : List (String × List α)) (k : String)
    (vs : List α) : List (String × List α) :=
  if (m.lookup k).isSome then
    m.map (fun p => if p.1 = k then (p.1, p.2 ++ vs) else p)
  else m ++ [(k, vs)]

def addMark (m : List String) (k : String) : List String :=
  if m.contains k then m else m ++ [k]

/-- extension.py:647-715 `Limiter.__limit_decorator`, the registration that
runs at decoration time: build the LimitGroup, register it as a dynamic group
when the provider is callable and as resolved static limits otherwise (a
parse failure there is logged and leaves the static list empty), mark the
route for limiting, and finally validate that the handler signature has a
request-like parameter.  The registries are written before that validation,
as in the source. -/
def limit_decorator (L : Limiter) (limit_value : LimitProvider)
    (key_func : KeyFunc) (shared : Bool) (scopeOpt : Option String)
    (per_method : Bool) (methods : Option (List String))
    (error_message : Option String) (exempt_when : Option (Unit → Bool))
    (cost : CostV) (override_defaults : Bool)
    (funcName : String) (funcHasRequestArg : Bool) : Limiter × Option DecErr :=
  let scope1 := if shared then scopeOpt else none
  let g := mkLimitGroup limit_value key_func scope1 per_method methods
             error_message exempt_when cost override_defaults
  let L1 :=
    if limit_value.isCallable then
      { L with
        marked_for_limiting := addMark L.marked_for_limiting funcName,
        dynamic_route_limits := appendEntry L.dynamic_route_limits funcName [g] }
    else
      let staticLims := match g.iter with
        | .ok ls => ls
        | .error _ => []
      { L with
        marked_for_limiting := addMark L.marked_for_limiting funcName,
        route_limits := appendEntry L.route_limits funcName staticLims }
  (L1, if funcHasRequestArg then none else some DecErr.noRequestArg)

/-- middleware.py:98-113 `_should_exempt`: skip when no handler was matched,
when the route is exempt, or when the route has an entry in the static
route-limit registry (the decorator will check instead). -/
def should_exempt (L : Limiter) (handler : Option String) : Bool :=
  match handler with
  | none => true
  | some name =>
      L.exempt_routes.contains name || (L.route_limits.lookup name).isSome

/-- A no-op outcome of a pass that did not evaluate anything. -/
def noopOut (L : Limiter) (st : HealthState) (rs : RequestState) : CheckOut :=
  ⟨L, st, rs, [], none, 0⟩

/-- middleware.py:116-139 `SlowAPIMiddleware.dispatch` together with
middleware.py:33-56 `_check_limits`, restricted to the limit-checking part:
the middleware consults the per-request flag before checking but never sets
it. -/
def middleware_pass (fuel : Nat) (L : Limiter) (primary fb : Backend)
    (now : Nat) (req : Request) (handler : Option String)
    (st : HealthState) (rs : RequestState) : CheckOut :=
  if !L.enabled then noopOut L st rs
  else if should_exempt L handler then noopOut L st rs
  else if L.auto_check && !rs.rate_limiting_complete then
    check_request_limit fuel L primary fb now req handler true st rs
  else noopOut L st rs

/-- extension.py:720-733: the pre-handler half of the decorator's
`async_wrapper` — evaluate unless the per-request flag is already set, then
set the flag (the flag is not set when the check raises). -/
def decorator_pass (fuel : Nat) (L : Limiter) (primary fb : Backend)
    (now : Nat) (req : Request) (funcName : String)
    (st : HealthState) (rs : RequestState) : CheckOut :=
  if L.enabled && L.auto_check && !rs.rate_limiting_complete then
    let r := check_request_limit fuel L primary fb now req (some funcName) false st rs
    match r.err with
    | none => { r with rstate := { r.rstate with rate_limiting_complete := true } }
    | some _ => r
  else noopOut L st rs

/-- One request lifecycle through both adapters: the middleware pass first
(its exceptions end the request with an error response, middleware.py:46-53
and 130-134), then the decorated handler's pass. -/
def lifecycle (fuel : Nat) (L : Limiter) (primary fb : Backend) (now : Nat)
    (req : Request) (handlerName : String) (st : HealthState)
    (rs : RequestState) : CheckOut :=
  let m := middleware_pass fuel L primary fb now req (some handlerName) st rs
  match m.err with
  | some _ => m
  | none =>
      let d := decorator_pass fuel m.L primary fb now req handlerName m.st m.rstate
      ⟨d.L, d.st, d.rstate, m.log ++ d.log, d.err, m.retries + d.retries⟩

/-- A response's header collection.  `get` is case-insensitive and `set`
replaces every matching entry, as starlette's header datastructures do. -/
structure Headers where
  entries : List (String × String)
deriving DecidableEq

def Headers.get (h : Headers) (k : String) : Option String :=
  (h.entries.find? (fun p => lowerStr p.1 = lowerStr k)).map (fun p => p.2)

def Headers.append (h : Headers) (k v : String) : Headers :=
  ⟨h.entries ++ [(k, v)]⟩

def Headers.set (h : Headers) (k v : String) : Headers :=
  ⟨(h.entries.filter (fun p => lowerStr p.1 ≠ lowerStr k)) ++ [(k, v)]⟩

/-- extension.py:530-548 `Limiter._determine_retry_time`: first try to parse
the header value as an HTTP-date (`dp` abstracts
`email.utils.parsedate_to_datetime` composed with `time.mktime`; `none`
models its failure), else as an integer number of seconds added to the
clock; anything else raises. -/
def determine_retry_time (dp : String → Option Int) (now : Int) (v : String) :
    Except Unit Int :=
  match dp v with
  | some d => Except.ok d
  | none =>
      match intFromChars v.data with
      | some r => Except.ok (now + r)
      | none => Except.error ()

/-- The outcome of `_inject_headers`: the headers (including any partial
writes made before an exception), the health state, the exception propagated
to the caller, and whether the failover retry ran (instrumentation for the
recursive call at extension.py:421). -/
structure InjectOut where
  headers : Headers
  st : HealthState
  err : Option Unit
  retried : Bool

/-- extension.py:377-428 `Limiter._inject_headers`.  `dp` abstracts the
HTTP-date parser and `fd` abstracts `email.utils.formatdate`.  The Retry-After
value is the maximum of any pre-existing Retry-After header and
`reset_in = 1 + resetEpoch`.  On an exception, the failover retry runs only
when the explicit fallback limit list is non-empty and the storage is not
already marked dead; afterwards the original exception is still swallowed or
re-raised per `swallow_errors` (there is no early return after the retry). -/
def inject_headers (fuel : Nat) (L : Limiter) (primary fb : Backend)
    (dp : String → Option Int) (fd : Int → String) (now : Int) (h : Headers)
    (current_limit : Option (RateLimitItem × List String))
    (st : HealthState) : InjectOut :=
  match fuel with
  | 0 => ⟨h, st, some (), false⟩
  | fuel + 1 =>
    match current_limit with
    | none => ⟨h, st, none, false⟩
    | some (item, args) =>
      if L.enabled && L.headers_enabled then
        let b := chooseBackend L st primary fb
        let step : Headers × Bool :=
          match b.get_window_stats item args with
          | none => (h, true)
          | some (resetEpoch, remaining) =>
            let reset_in : Int := 1 + resetEpoch
            let h1 := ((h.append L.header_limit (toString item.amount)).append
                        L.header_remaining (toString remaining)).append
                        L.header_reset (toString reset_in)
            match h1.get "Retry-After" with
            | some v =>
                match determine_retry_time dp now v with
                | .error _ => (h1, true)
                | .ok d =>
                    let r2 := max d reset_in
                    (h1.set L.header_retry_after
                      (if L.retry_after_style = some "http-date" then fd r2
                       else toString (r2 - now)), false)
            | none =>
                (h1.set L.header_retry_after
                  (if L.retry_after_style = some "http-date" then fd reset_in
                   else toString (reset_in - now)), false)
        match step with
        | (h2, false) => ⟨h2, st, none, false⟩
        | (h2, true) =>
            if !L.in_memory_fallback.isEmpty && !st.storage_dead then
              let r := inject_headers fuel L primary fb dp fd now h2 current_limit
                         { st with storage_dead := true }
              if L.swallow_errors then ⟨r.headers, r.st, none, true⟩
              else ⟨r.headers, r.st, some (), true⟩
            else if L.swallow_errors then ⟨h2, st, none, false⟩
            else ⟨h2, st, some (), false⟩
      else ⟨h, st, none, false⟩

/-! ### Concrete fixtures -/

/-- A key function reading the client address (util.py `get_remote_address`,
declaring a `request` parameter). -/
def kfW : KeyFunc := .withRequest (fun r => r.client)

/-- A key function that does not declare a `request` parameter. -/
def badKf : KeyFunc := .noArg (fun _ => "me")

def reqW : Request := ⟨"/home", "GET", "1.2.3.4"⟩

/-- A backend whose hits always pass. -/
def okB : Backend := ⟨fun _ _ _ => some true, fun _ _ => some (100, 3), true⟩

/-- A backend whose calls raise, with a live `check()`. -/
def boomB : Backend := ⟨fun _ _ _ => none, fun _ _ => none, true⟩

/-- A backend whose calls raise, with a failing `check()`. -/
def downB : Backend := ⟨fun _ _ _ => none, fun _ _ => none, false⟩

/-- A backend whose hits always report the limit exceeded. -/
def rejectB : Backend := ⟨fun _ _ _ => some false, fun _ _ => some (0, 0), true⟩

def st0 : HealthState := ⟨false, 0, 0⟩

def stDead : HealthState := ⟨true, 0, 0⟩

def rs0 : RequestState := ⟨none, false⟩

/-- A default-limit group "10/minute", built as the constructor does
(extension.py:187-194: scope none, override_defaults false). -/
def defGroupW : LimitGroup :=
  mkLimitGroup (.str "10/minute") kfW none false none none none (.const 1) false

/-- An in-memory-fallback group "1/minute" (extension.py:211-218). -/
def fbGroupW : LimitGroup :=
  mkLimitGroup (.str "1/minute") kfW none false none none none (.const 1) false

/-- A minimal enabled Limiter with default header names and empty
registries. -/
def baseL : Limiter :=
  ⟨true, false, false, true, [], false, [], [], [], [], [], [], [], "",
   KeyStyle.url, none, "X-RateLimit-Limit", "X-RateLimit-Remaining",
   "X-RateLimit-Reset", "Retry-After"⟩

def isRleErr : Option CheckErr → Bool
  | some (CheckErr.rle _) => true
  | _ => false

/-! ### Claims -/

/-- C1: When the engine assembles the candidate limit set for a request (the
non-fallback branch of `check_attempt` guards the default limits with
`defaults_included`), the default limits are appended exactly when the route
has no route-specific limits at all, and also whenever every route-specific
limit has override_defaults = false; when route-specific limits are non-empty
and at least one has override_defaults = true, the defaults are not
appended. -/
theorem c1_defaults_append_rule (rl : List Limit) (mw marked : Bool) :
    defaults_included rl mw marked = true ↔
      (rl = [] ∨ ∀ l ∈ rl, l.override_defaults = false) := by
  cases rl with
  | nil => simp [defaults_included, combined_defaults]
  | cons a as =>
      simp [defaults_included, combined_defaults, List.all_eq_true]

theorem c1_defaults_append_rule_witness :
    defaults_included [] true true = true :=
  (c1_defaults_append_rule [] true true).mpr (Or.inl rfl)

/-- C6: A RateLimitExceeded raised during request evaluation is re-raised by
the except handler of `_check_request_limit` (`check_finish`) before the
failover and swallow-errors branches are consulted, under every
configuration: the caller always sees it, no failover retry runs, and the
storage-health state is untouched. -/
theorem c6_rle_always_propagates (retry : HealthState → RequestState → CheckOut)
    (L1 : Limiter) (a : AttemptOut) (rs : RequestState) (l : Limit)
    (h : a.err = some (TryErr.rle l)) :
    (check_finish retry L1 a rs).err = some (CheckErr.rle l) ∧
    (check_finish retry L1 a rs).retries = 0 ∧
    (check_finish retry L1 a rs).st = a.st := by
  simp [check_finish, h]

def limW : Limit := ⟨⟨5, 1, .minute, false⟩, kfW, none, false, none, none, none, .const 1, true⟩

def aW : AttemptOut := ⟨st0, [], some (some (limW.limit, ["k", "s"])), some (TryErr.rle limW)⟩

theorem c6_rle_always_propagates_witness :
    (check_finish (fun _ _ => noopOut baseL st0 rs0) baseL aW rs0).err
        = some (CheckErr.rle limW) ∧
    (check_finish (fun _ _ => noopOut baseL st0 rs0) baseL aW rs0).retries = 0 ∧
    (check_finish (fun _ _ => noopOut baseL st0 rs0) baseL aW rs0).st = aW.st :=
  c6_rle_always_propagates (fun _ _ => noopOut baseL st0 rs0) baseL aW rs0 limW rfl

/-- The Limiter of C3's failing input: a global default of "10/minute" and a
route decorated only with a callable (dynamic) limit provider returning
"5/minute" with override_defaults = False. -/
def Lc3 : Limiter :=
  (limit_decorator { baseL with default_limits := [defGroupW] }
    (.fnNoKey (fun _ => "5/minute")) kfW false none false none none none
    (.const 1) false "tests.myroute" true).1

/-- C3 (failing input): with both the middleware pass and the decorator pass
active on a dynamically-limited route, the default "10/minute" limit is hit
once by the middleware (which is not exempted for dynamic-only routes and
never sets the per-request flag) and once more by the decorator — two backend
increments for one request, against the claim's exactly-once. The dynamic
"5/minute" limit itself is hit once and the request is not rejected. -/
theorem c3_double_count_at_failing_input :
    countHits (lifecycle 5 Lc3 okB okB 0 reqW "tests.myroute" st0 rs0).log
        ⟨10, 1, Granularity.minute, false⟩ = 2 ∧
    countHits (lifecycle 5 Lc3 okB okB 0 reqW "tests.myroute" st0 rs0).log
        ⟨5, 1, Granularity.minute, false⟩ = 1 ∧
    (lifecycle 5 Lc3 okB okB 0 reqW "tests.myroute" st0 rs0).err = none := by
  refine ⟨by decide, by decide, rfl⟩

/-- The Limiter of C5's counterexample: fallback enabled with no explicit
fallback limits (it then inherits the original limits), and a default
limit. -/
def Lc5 : Limiter :=
  { baseL with default_limits := [defGroupW], in_memory_fallback_enabled := true }

/-- C5 (counterexample): with the primary backend raising on every hit but
answering the liveness probe, the first failure flips storage_dead and
retries; during the retry the re-probe succeeds and clears storage_dead, the
primary fails again, and a second failover retry runs — the recursion depth
is 2, not bounded by one as claimed. -/
theorem c5_probe_allows_second_retry :
    (check_request_limit 6 Lc5 boomB okB 2 reqW (some "m.f") false st0 rs0).retries
      = 2 := by
  decide

/-- The Limiter of C8's input: a route decorated with a callable limit
provider declaring a "key" parameter, while the key function does not accept
a request. -/
def Lc8 : Limiter :=
  (limit_decorator baseL (.fnKey (fun k => k ++ "/minute")) badKf false none false
      none none none (.const 1) true "m.dyn" true).1

/-- C8 (counterexample): decorating a callable provider that declares a "key"
parameter with a key function lacking a request parameter raises no error at
decoration time; the configuration (assertion) error surfaces when the group
is resolved during request handling — the opposite of the claimed eager,
decoration-time failure. -/
theorem c8_error_at_request_time_not_decoration :
    (limit_decorator baseL (.fnKey (fun k => k ++ "/minute")) badKf false none false
        none none none (.const 1) true "m.dyn" true).2 = none ∧
    (check_request_limit 5 Lc8 okB okB 0 reqW (some "m.dyn") false st0 rs0).err
        = some (CheckErr.resolveUncaught ResolveErr.assertKey) := by
  exact ⟨rfl, rfl⟩

/-- The Limiter of C9's counterexample: a route with one registered dynamic
limit group. -/
def Lc9 : Limiter :=
  (limit_decorator baseL (.fnNoKey (fun _ => "5/minute")) kfW false none false
      none none none (.const 1) true "m.d2" true).1

/-- C9 (counterexample): before any request, the registered dynamic
LimitGroup has no request stored; after one request-time evaluation, the same
registry entry holds a group whose request field has been written
(`with_request`) — request handling does write to a registered LimitGroup
object. -/
theorem c9_request_written_to_registered_group :
    ((Lc9.dynamic_route_limits.lookup "m.d2").getD []).map
        (fun g => g.request.isSome) = [false] ∧
    (((check_request_limit 5 Lc9 okB okB 0 reqW (some "m.d2") false st0
        rs0).L.dynamic_route_limits.lookup "m.d2").getD []).map
        (fun g => g.request.isSome) = [true] := by
  exact ⟨rfl, rfl⟩

/-- The Limiter of C4's counterexample: a route decorated with the literal
"exempt", an in-memory fallback configured with the limit "1/minute". -/
def Lc4 : Limiter :=
  (limit_decorator
    { baseL with in_memory_fallback := [fbGroupW], in_memory_fallback_enabled := true }
    (.str "exempt") kfW false none false none none none (.const 1) true
    "m.ex" true).1

/-- C4 (counterexample): once the storage has been marked dead (by any
route's backend failure), the dead-storage branch replaces the candidate set
with the fallback limits, so a route decorated with the "exempt" literal is
rejected when the fallback "1/minute" limit reports exceeded — the claim's
"never rejected regardless of request volume" does not hold on this path. -/
theorem c4_exempt_rejected_under_fallback :
    isRleErr (decorator_pass 5 Lc4 okB rejectB 0 reqW "m.ex" stDead rs0).err
      = true := by
  decide

/-- The Limit a route decorated with the literal "exempt" registers (the
decorator's defaults: no scope, no methods, cost 1, override_defaults
true). -/
def exLimOf (kf0 : KeyFunc) : Limit :=
  ⟨exemptItem, kf0, none, false, none, none, none, CostV.const 1, true⟩

/-- C4 (amended): a limit parsed from the literal "exempt" is the pass-always
descriptor, and a route decorated with it is never rejected regardless of
request volume — for every backend behaviour — as long as the dead-storage
fallback path is not active (storage not marked dead); the request records
the exempt binding in request-scoped state, so it flows through the
header-injection machinery.  (When the storage is dead with a non-empty
fallback limit list, the fallback limits replace the route's limits and can
reject; see the counterexample.) -/
theorem c4_exempt_route_never_rejected (fuel : Nat) (L : Limiter)
    (primary fb : Backend) (now : Nat) (req : Request) (nm : String)
    (st : HealthState) (rs : RequestState) (kf0 : KeyFunc)
    (hen : L.enabled = true) (hauto : L.auto_check = true)
    (hflag : rs.rate_limiting_complete = false)
    (hex : L.exempt_routes.contains nm = false)
    (hfil : L.request_filters.any id = false)
    (hek : endpointKeyOf L req nm ≠ "")
    (hroute : L.route_limits.lookup nm = some [exLimOf kf0])
    (hdyn : (L.dynamic_route_limits.lookup nm).getD [] = [])
    (halive : st.storage_dead = false)
    (hkey : kf0.callOn req ≠ "") :
    parse_many "exempt" = some [exemptItem] ∧
    (decorator_pass (fuel + 1) L primary fb now req nm st rs).err = none ∧
    ∃ args,
      (decorator_pass (fuel + 1) L primary fb now req nm st
          rs).rstate.view_rate_limit = some (some (exemptItem, args)) := by
  have hskip : limSkipped (exLimOf kf0) (endpointKeyOf L req nm) req = false := by
    unfold limSkipped Limit.is_exempt effScope Limit.scope exLimOf
    simp [hkey, hek]
  have heval : ∀ (b : Backend) (pfx : String),
      evaluate_limits b pfx (endpointKeyOf L req nm) req [exLimOf kf0]
        = ⟨[⟨exemptItem, limArgs pfx (exLimOf kf0) (endpointKeyOf L req nm) req,
             1⟩],
           some (some (exemptItem,
             limArgs pfx (exLimOf kf0) (endpointKeyOf L req nm) req)),
           none⟩ := by
    intro b pfx
    unfold evaluate_limits
    rw [evalLoop, if_neg (by simp [hskip])]
    rfl
  have hds : ∀ (L2 : Limiter) (mk2 : Bool),
      L2.in_memory_fallback_enabled = L.in_memory_fallback_enabled →
      deadStorageStep L2 primary now false mk2 st = (st, Except.ok []) := by
    intro L2 mk2 _
    unfold deadStorageStep
    rw [halive]
    simp
  have hni : nm ∉ L.exempt_routes := by simpa using hex
  have hcheck : check_request_limit (fuel + 1) L primary fb now req (some nm)
      false st rs
      = ⟨{ L with dynamic_route_limits :=
             (updateEntry L.dynamic_route_limits nm []) },
         st,
         { rs with view_rate_limit := some (some (exemptItem,
             limArgs L.pfx (exLimOf kf0) (endpointKeyOf L req nm) req)) },
         [⟨exemptItem, limArgs L.pfx (exLimOf kf0) (endpointKeyOf L req nm) req,
           1⟩],
         none, 0⟩ := by
    unfold check_request_limit
    dsimp only
    rw [if_neg (by simp [hek, hen, hfil, hni])]
    simp only [Bool.false_eq_true, if_false, Option.getD_some, hroute, hdyn]
    rw [show gatherDynamic req [] = ⟨[], [], none⟩ from rfl]
    dsimp only
    unfold check_attempt
    dsimp only
    rw [hds { L with dynamic_route_limits :=
        (updateEntry L.dynamic_route_limits nm []) } _ rfl]
    dsimp only
    simp only [List.isEmpty_nil, eq_self_iff_true, if_true, Bool.false_eq_true,
      if_false]
    rw [if_neg (by simp [defaults_included, combined_defaults, exLimOf])]
    dsimp only
    simp only [List.nil_append, List.append_nil]
    rw [heval]
    rfl
  refine ⟨rfl, ?_, ?_⟩
  · unfold decorator_pass
    rw [hen, hauto, hflag]
    rw [if_pos (by simp)]
    rw [hcheck]
  · refine ⟨limArgs L.pfx (exLimOf kf0) (endpointKeyOf L req nm) req, ?_⟩
    unfold decorator_pass
    rw [hen, hauto, hflag]
    rw [if_pos (by simp)]
    rw [hcheck]

theorem c4_exempt_route_never_rejected_witness :
    parse_many "exempt" = some [exemptItem] ∧
    (decorator_pass 5 Lc4 rejectB boomB 0 reqW "m.ex" st0 rs0).err = none ∧
    ∃ args,
      (decorator_pass 5 Lc4 rejectB boomB 0 reqW "m.ex" st0
          rs0).rstate.view_rate_limit = some (some (exemptItem, args)) :=
  c4_exempt_route_never_rejected 4 Lc4 rejectB boomB 0 reqW "m.ex" st0 rs0 kfW
    rfl rfl rfl rfl rfl (by decide) rfl rfl rfl (by decide)

/-- The header-candidate accumulator of the evaluation loop points to an
entry of the hit trace whose amount is minimal. -/
def accMin (acc : Option (RateLimitItem × List String)) (log : List HitCall) :
    Prop :=
  match acc with
  | none => log = []
  | some (a, args) =>
      (∃ e ∈ log, e.item = a ∧ e.args = args) ∧
      ∀ e ∈ log, a.amount ≤ e.item.amount

lemma accMin_update {acc : Option (RateLimitItem × List String)}
    {log : List HitCall} (it : RateLimitItem) (args : List String) (c : Nat)
    (h : accMin acc log) :
    accMin (accUpdate acc it args) (log ++ [⟨it, args, c⟩]) := by
  cases acc with
  | none =>
      have hlog : log = [] := h
      subst hlog
      exact ⟨⟨⟨it, args, c⟩, by simp, rfl, rfl⟩, by simp⟩
  | some p =>
      obtain ⟨a, aargs⟩ := p
      obtain ⟨⟨e, he, hei, hea⟩, hmin⟩ := h
      by_cases hlt : itemLt it a = true
      · have hlt2 : it.amount < a.amount := by
          simpa [itemLt] using hlt
        have hacc : accUpdate (some (a, aargs)) it args = some (it, args) := by
          simp [accUpdate, hlt]
        rw [hacc]
        refine ⟨⟨⟨it, args, c⟩, by simp, rfl, rfl⟩, ?_⟩
        intro f hf
        rcases List.mem_append.mp hf with h1 | h1
        · exact le_trans (le_of_lt hlt2) (hmin f h1)
        · simp only [List.mem_singleton] at h1
          subst h1
          exact le_refl _
      · have hle : a.amount ≤ it.amount := by
          have h2 : ¬ it.amount < a.amount := by
            simpa [itemLt] using hlt
          exact Nat.le_of_not_lt h2
        have hacc : accUpdate (some (a, aargs)) it args = some (a, aargs) := by
          simp [accUpdate, hlt]
        rw [hacc]
        refine ⟨⟨e, List.mem_append_left _ he, hei, hea⟩, ?_⟩
        intro f hf
        rcases List.mem_append.mp hf with h1 | h1
        · exact hmin f h1
        · simp only [List.mem_singleton] at h1
          subst h1
          exact hle

lemma evalLoop_rle (b : Backend) (pfx endpoint : String) (req : Request)
    (lims : List Limit) :
    ∀ (acc : Option (RateLimitItem × List String)) (log : List HitCall)
      (l : Limit),
      (evalLoop b pfx endpoint req lims acc log).err = some (EvalErr.rle l) →
      ∃ args, (evalLoop b pfx endpoint req lims acc log).view
          = some (some (l.limit, args)) := by
  induction lims with
  | nil =>
      intro acc log l h
      simp [evalLoop] at h
  | cons lim rest ih =>
      intro acc log l h
      by_cases hs : limSkipped lim endpoint req = true
      · rw [evalLoop, if_pos hs] at h ⊢
        exact ih _ _ _ h
      · rw [evalLoop, if_neg hs] at h ⊢
        cases hd : doHit b lim.limit (limArgs pfx lim endpoint req)
            (lim.cost.eval req) with
        | none =>
            rw [hd] at h
            simp at h
        | some tv =>
            cases tv with
            | true =>
                rw [hd] at h
                exact ih _ _ _ h
            | false =>
                rw [hd] at h
                simp only [Option.some.injEq] at h
                cases h
                exact ⟨limArgs pfx lim endpoint req, rfl⟩

lemma evalLoop_pass_min (b : Backend) (pfx endpoint : String) (req : Request)
    (lims : List Limit) :
    ∀ (acc : Option (RateLimitItem × List String)) (log : List HitCall),
      accMin acc log →
      (evalLoop b pfx endpoint req lims acc log).err = none →
      ∃ accf, (evalLoop b pfx endpoint req lims acc log).view = some accf ∧
        accMin accf (evalLoop b pfx endpoint req lims acc log).log := by
  induction lims with
  | nil =>
      intro acc log hmin _
      exact ⟨acc, rfl, hmin⟩
  | cons lim rest ih =>
      intro acc log hmin herr
      by_cases hs : limSkipped lim endpoint req = true
      · rw [evalLoop, if_pos hs] at herr ⊢
        exact ih _ _ hmin herr
      · rw [evalLoop, if_neg hs] at herr ⊢
        cases hd : doHit b lim.limit (limArgs pfx lim endpoint req)
            (lim.cost.eval req) with
        | none =>
            rw [hd] at herr
            simp at herr
        | some tv =>
            cases tv with
            | true =>
                rw [hd] at herr
                exact ih _ _
                  (accMin_update lim.limit (limArgs pfx lim endpoint req)
                    (lim.cost.eval req) hmin) herr
            | false =>
                rw [hd] at herr
                simp at herr

/-- C2: After evaluating the candidate limits of a request, the binding limit
recorded in request-scoped state by `__evaluate_limits` is: the failing limit
when some backend hit reports exceeded (the evaluation stops there and raises
carrying that limit), and otherwise — provided at least one limit was
actually checked (not skipped) — a checked limit of minimal amount among all
checked limits. -/
theorem c2_binding_limit (b : Backend) (pfx endpoint : String) (req : Request)
    (lims : List Limit) :
    (∀ l, (evaluate_limits b pfx endpoint req lims).err = some (EvalErr.rle l) →
        ∃ args, (evaluate_limits b pfx endpoint req lims).view
            = some (some (l.limit, args))) ∧
    ((evaluate_limits b pfx endpoint req lims).err = none →
      (evaluate_limits b pfx endpoint req lims).log ≠ [] →
        ∃ e ∈ (evaluate_limits b pfx endpoint req lims).log,
          (evaluate_limits b pfx endpoint req lims).view
              = some (some (e.item, e.args)) ∧
          ∀ f ∈ (evaluate_limits b pfx endpoint req lims).log,
            e.item.amount ≤ f.item.amount) := by
  constructor
  · intro l h
    exact evalLoop_rle b pfx endpoint req lims none [] l h
  · intro herr hlog
    obtain ⟨accf, hview, hmin⟩ :=
      evalLoop_pass_min b pfx endpoint req lims none [] rfl herr
    cases accf with
    | none =>
        exact absurd hmin hlog
    | some p =>
        obtain ⟨a, args⟩ := p
        obtain ⟨⟨e, he, hei, hea⟩, hall⟩ := hmin
        refine ⟨e, he, ?_, ?_⟩
        · rw [hei, hea]
          exact hview
        · intro f hf
          rw [hei]
          exact hall f hf

/-- The two limits of C2's witness: amounts 5 then 3 on a passing backend. -/
def limW3 : Limit :=
  ⟨⟨3, 1, .minute, false⟩, kfW, none, false, none, none, none, .const 1, true⟩

theorem c2_binding_limit_witness :
    ∃ e ∈ (evaluate_limits okB "" "ep" reqW [limW, limW3]).log,
      (evaluate_limits okB "" "ep" reqW [limW, limW3]).view
          = some (some (e.item, e.args)) ∧
      ∀ f ∈ (evaluate_limits okB "" "ep" reqW [limW, limW3]).log,
        e.item.amount ≤ f.item.amount :=
  (c2_binding_limit okB "" "ep" reqW [limW, limW3]).2 rfl (by decide)

lemma should_check_backend_dead (st : HealthState) (now : Nat) :
    ((should_check_backend st now).2).storage_dead = st.storage_dead := by
  unfold should_check_backend
  dsimp only
  split <;> split <;> rfl

lemma deadStorageStep_dead (L : Limiter) (primary : Backend) (now : Nat)
    (mw marked : Bool) (st : HealthState) (hd : st.storage_dead = true)
    (hc : primary.check = false) :
    ((deadStorageStep L primary now mw marked st).1).storage_dead = true := by
  unfold deadStorageStep
  cases hsc : should_check_backend st now with
  | mk probe st1 =>
      have h1 : st1.storage_dead = true := by
        have h2 := should_check_backend_dead st now
        rw [hsc] at h2
        rw [h2, hd]
      rw [hc]
      simp only [Bool.and_false, Bool.false_eq_true, if_false]
      split
      · split
        · exact hd
        · exact h1
      · exact hd

lemma check_attempt_st (L : Limiter) (primary fb : Backend) (now : Nat)
    (req : Request) (name ek : String) (mw : Bool) (ls ds : List Limit)
    (st : HealthState) :
    (check_attempt L primary fb now req name ek mw ls ds st).st
      = (deadStorageStep L primary now mw (L.marked_for_limiting.contains name)
          st).1 := by
  simp only [check_attempt]
  cases hds : deadStorageStep L primary now mw
      (L.marked_for_limiting.contains name) st with
  | mk st1 exc =>
      cases exc with
      | error e => rfl
      | ok fbLims =>
          dsimp only
          split <;> rfl

lemma check_finish_retries_zero (f : HealthState → RequestState → CheckOut)
    (L1 : Limiter) (a : AttemptOut) (rs : RequestState)
    (hd : a.st.storage_dead = true) :
    (check_finish f L1 a rs).retries = 0 := by
  unfold check_finish
  rcases herr : a.err with _ | e
  · rfl
  · cases e with
    | rle l => rfl
    | backendExn =>
        simp only [hd, Bool.not_true, Bool.and_false, Bool.false_eq_true, if_false]
        split <;> rfl
    | resolveExn e2 =>
        simp only [hd, Bool.not_true, Bool.and_false, Bool.false_eq_true, if_false]
        split <;> rfl

lemma check_finish_retries_le (f : HealthState → RequestState → CheckOut)
    (L1 : Limiter) (a : AttemptOut) (rs : RequestState)
    (h : (f { a.st with storage_dead := true } (applyView rs a.view)).retries = 0) :
    (check_finish f L1 a rs).retries ≤ 1 := by
  unfold check_finish
  rcases herr : a.err with _ | e
  · exact Nat.zero_le 1
  · cases e with
    | rle l => exact Nat.zero_le 1
    | backendExn =>
        dsimp only
        split
        · simp [h]
        · split <;> exact Nat.zero_le 1
    | resolveExn e2 =>
        dsimp only
        split
        · simp [h]
        · split <;> exact Nat.zero_le 1

lemma check_dead_no_retry (fuel : Nat) (L : Limiter) (primary fb : Backend)
    (now : Nat) (req : Request) (ef : Option String) (mw : Bool)
    (st : HealthState) (rs : RequestState) (hd : st.storage_dead = true)
    (hc : primary.check = false) :
    (check_request_limit fuel L primary fb now req ef mw st rs).retries = 0 := by
  cases fuel with
  | zero => rfl
  | succ n =>
      unfold check_request_limit
      dsimp only
      split
      · rfl
      · split
        · apply check_finish_retries_zero
          rw [check_attempt_st]
          exact deadStorageStep_dead L primary now true _ st hd hc
        · split
          · rfl
          · apply check_finish_retries_zero
            rw [check_attempt_st]
            exact deadStorageStep_dead _ primary now false _ st hd hc

/-- C5 (amended): on a backend exception during evaluation, with the fallback
enabled and the storage not yet marked dead, the engine flips storage_dead
and re-runs the evaluation once; the retried evaluation can trigger a further
fallback retry only when the dead-backend re-probe succeeds during the retry
(clearing storage_dead) and the backend then fails again.  When the probe
cannot succeed (the backend's liveness check fails while it is down), the
recursion depth is bounded by one. -/
theorem c5_fallback_retry_bound (fuel : Nat) (L : Limiter) (primary fb : Backend)
    (now : Nat) (req : Request) (ef : Option String) (mw : Bool)
    (st : HealthState) (rs : RequestState) (hc : primary.check = false) :
    (check_request_limit fuel L primary fb now req ef mw st rs).retries ≤ 1 := by
  cases fuel with
  | zero => exact Nat.zero_le 1
  | succ n =>
      unfold check_request_limit
      dsimp only
      split
      · exact Nat.zero_le 1
      · split
        · apply check_finish_retries_le
          exact check_dead_no_retry n L primary fb now req ef true _ _ rfl hc
        · split
          · exact Nat.zero_le 1
          · apply check_finish_retries_le
            exact check_dead_no_retry n _ primary fb now req ef false _ _ rfl hc

theorem c5_fallback_retry_bound_witness :
    (check_request_limit 6 Lc5 downB okB 2 reqW (some "m.f") false st0 rs0).retries
      ≤ 1 :=
  c5_fallback_retry_bound 6 Lc5 downB okB 2 reqW (some "m.f") false st0 rs0 rfl

lemma get_append_ne (h : Headers) (k1 v1 k : String)
    (hne : lowerStr k1 ≠ lowerStr k) : (h.append k1 v1).get k = h.get k := by
  obtain ⟨l⟩ := h
  unfold Headers.get Headers.append
  dsimp only
  induction l with
  | nil => simp [List.find?, hne]
  | cons a as ih =>
      by_cases hp : lowerStr a.1 = lowerStr k
      · simp [List.find?_cons, hp]
      · simpa [List.find?_cons, hp] using ih

lemma get_set_self (h : Headers) (k v : String) :
    (h.set k v).get k = some v := by
  obtain ⟨l⟩ := h
  unfold Headers.get Headers.set
  dsimp only
  induction l with
  | nil => simp [List.find?]
  | cons a as ih =>
      by_cases hp : lowerStr a.1 = lowerStr k
      · simp [List.filter_cons, hp]
      · simp [List.filter_cons, hp, List.find?_cons]

/-- C7: During header injection, when the response already carries a
Retry-After value that `_determine_retry_time` can parse (integer seconds or
an HTTP-date, to epoch `existingEpoch`), the written Retry-After renders
`max existingEpoch resetIn` with `resetIn = 1 + resetEpoch`, so the final
value never represents an earlier retry time than the pre-existing header,
and injection completes without error. -/
theorem c7_retry_after_never_shortened (L : Limiter) (primary fb : Backend)
    (dp : String → Option Int) (fd : Int → String) (now : Int) (h : Headers)
    (item : RateLimitItem) (args : List String) (st : HealthState) (fuel : Nat)
    (resetEpoch remaining existingEpoch : Int) (v : String)
    (hen : L.enabled = true) (hhe : L.headers_enabled = true)
    (hstats : (chooseBackend L st primary fb).get_window_stats item args
        = some (resetEpoch, remaining))
    (hv : h.get "Retry-After" = some v)
    (hn1 : lowerStr L.header_limit ≠ lowerStr "Retry-After")
    (hn2 : lowerStr L.header_remaining ≠ lowerStr "Retry-After")
    (hn3 : lowerStr L.header_reset ≠ lowerStr "Retry-After")
    (hdet : determine_retry_time dp now v = Except.ok existingEpoch) :
    (inject_headers (fuel + 1) L primary fb dp fd now h (some (item, args))
        st).headers.get L.header_retry_after
      = some (if L.retry_after_style = some "http-date"
              then fd (max existingEpoch (1 + resetEpoch))
              else toString (max existingEpoch (1 + resetEpoch) - now)) ∧
    existingEpoch ≤ max existingEpoch (1 + resetEpoch) ∧
    (inject_headers (fuel + 1) L primary fb dp fd now h (some (item, args))
        st).err = none := by
  have hga : (((h.append L.header_limit (toString item.amount)).append
      L.header_remaining (toString remaining)).append
      L.header_reset (toString (1 + resetEpoch))).get "Retry-After" = some v := by
    rw [get_append_ne _ _ _ _ hn3, get_append_ne _ _ _ _ hn2,
        get_append_ne _ _ _ _ hn1, hv]
  have key : inject_headers (fuel + 1) L primary fb dp fd now h
      (some (item, args)) st
      = ⟨(((h.append L.header_limit (toString item.amount)).append
            L.header_remaining (toString remaining)).append
            L.header_reset (toString (1 + resetEpoch))).set L.header_retry_after
            (if L.retry_after_style = some "http-date"
             then fd (max existingEpoch (1 + resetEpoch))
             else toString (max existingEpoch (1 + resetEpoch) - now)),
         st, none, false⟩ := by
    unfold inject_headers
    simp only [hen, hhe, Bool.and_self, if_true, hstats, hga, hdet]
  refine ⟨?_, le_max_left _ _, ?_⟩
  · rw [key]
    exact get_set_self _ _ _
  · rw [key]

def h7 : Headers := ⟨[("Retry-After", "50")]⟩

def L7 : Limiter := { baseL with headers_enabled := true }

/-- C8 (amended): for a callable limit provider declaring a "key" parameter,
resolution computes key = keyFunction(request) and calls provider(key); a key
function that does not accept a request is NOT rejected at decoration time —
the assertion error is raised when the group is resolved (at request time for
callable providers); and resolving such a provider with no request available
fails with the missing-request error. -/
theorem c8_key_provider_contract (f : String → String) (kf0 : KeyFunc)
    (L : Limiter) (req : Request) (od : Bool) (nm : String) :
    (kf0.hasRequestParam = true →
      ∀ items, parse_many (f (kf0.callOn req)) = some items →
        ∃ ls, ((mkLimitGroup (.fnKey f) kf0 none false none none none
                  (CostV.const 1) od).with_request req).iter = Except.ok ls ∧
          ls.map (fun l => l.limit) = items) ∧
    (kf0.hasRequestParam = false →
      (limit_decorator L (.fnKey f) kf0 false none false none none none
          (CostV.const 1) od nm true).2 = none ∧
      ∀ r, ((mkLimitGroup (.fnKey f) kf0 none false none none none
              (CostV.const 1) od).with_request r).iter
          = Except.error ResolveErr.assertKey) ∧
    (kf0.hasRequestParam = true →
      (mkLimitGroup (.fnKey f) kf0 none false none none none
          (CostV.const 1) od).iter = Except.error ResolveErr.noRequest) := by
  refine ⟨?_, ?_, ?_⟩
  · intro hr items hp
    refine ⟨items.map (fun it =>
      ⟨it, kf0, none, false, none, none, none, CostV.const 1, od⟩), ?_, ?_⟩
    · unfold LimitGroup.iter mkLimitGroup LimitGroup.with_request
      dsimp only
      rw [hr]
      simp [hp]
    · clear hp
      induction items with
      | nil => rfl
      | cons a as ihs => simp only [List.map_cons, List.map_nil, ihs]
  · intro hr
    refine ⟨rfl, ?_⟩
    intro r
    unfold LimitGroup.iter mkLimitGroup LimitGroup.with_request
    dsimp only
    rw [hr]
    rfl
  · intro hr
    unfold LimitGroup.iter mkLimitGroup
    dsimp only
    rw [hr]
    rfl

theorem c8_key_provider_contract_witness :
    (limit_decorator baseL (.fnKey (fun k => k ++ "/minute")) badKf false none
        false none none none (CostV.const 1) true "m.dyn" true).2 = none ∧
    ((mkLimitGroup (.fnKey (fun k => k ++ "/minute")) badKf none false none none
        none (CostV.const 1) true).with_request reqW).iter
      = Except.error ResolveErr.assertKey :=
  ⟨((c8_key_provider_contract (fun k => k ++ "/minute") badKf baseL reqW true
      "m.dyn").2.1 rfl).1,
   ((c8_key_provider_contract (fun k => k ++ "/minute") badKf baseL reqW true
      "m.dyn").2.1 rfl).2 reqW⟩

/-- Forget the per-request slot of a group (the only field request handling
writes). -/
def eraseReq (g : LimitGroup) : LimitGroup := { g with request := none }

lemma eraseReq_with_request (g : LimitGroup) (r : Request) :
    eraseReq (g.with_request r) = eraseReq g := rfl

lemma gatherDynamic_groups_erase (req : Request) (gs : List LimitGroup) :
    (gatherDynamic req gs).groups.map eraseReq = gs.map eraseReq := by
  induction gs with
  | nil => rfl
  | cons g rest ih =>
      unfold gatherDynamic
      dsimp only
      cases hit : (g.with_request req).iter with
      | ok ls => simp [eraseReq_with_request, ih]
      | error e =>
          cases e with
          | parse => simp [eraseReq_with_request, ih]
          | assertKey => simp [eraseReq_with_request]
          | noRequest => simp [eraseReq_with_request]

lemma updateEntry_cons (pk : String) (pv : List LimitGroup)
    (rest : List (String × List LimitGroup)) (nm : String)
    (v : List LimitGroup) :
    updateEntry ((pk, pv) :: rest) nm v
      = (if pk = nm then (pk, v) else (pk, pv)) :: updateEntry rest nm v := by
  unfold updateEntry
  rw [List.map_cons]

lemma lookup_updateEntry_ne (m : List (String × List LimitGroup))
    (nm k : String) (v : List LimitGroup) (hk : k ≠ nm) :
    (updateEntry m nm v).lookup k = m.lookup k := by
  induction m with
  | nil => rfl
  | cons p rest ih =>
      obtain ⟨pk, pv⟩ := p
      rw [updateEntry_cons]
      by_cases hpk : pk = nm
      · have hb : (k == pk) = false := by
          subst hpk
          simp [hk]
        rw [if_pos hpk]
        simp only [List.lookup_cons, hb]
        exact ih
      · rw [if_neg hpk]
        by_cases hkpk : k = pk
        · subst hkpk
          simp only [List.lookup_cons, beq_self_eq_true]
        · have hb : (k == pk) = false := by simp [hkpk]
          simp only [List.lookup_cons, hb]
          exact ih

lemma lookup_updateEntry_gather (m : List (String × List LimitGroup))
    (nm : String) (req : Request) (k : String) :
    (((updateEntry m nm
        (gatherDynamic req ((m.lookup nm).getD [])).groups).lookup k).getD
        []).map eraseReq
      = ((m.lookup k).getD []).map eraseReq := by
  by_cases hk : k = nm
  · subst hk
    induction m with
    | nil => rfl
    | cons p rest ih =>
        obtain ⟨pk, pv⟩ := p
        by_cases hpk : pk = k
        · subst hpk
          rw [updateEntry_cons, if_pos rfl]
          simp only [List.lookup_cons, beq_self_eq_true, Option.getD_some]
          exact gatherDynamic_groups_erase req pv
        · have hb : (k == pk) = false := by
            simp only [beq_eq_false_iff_ne, ne_eq]
            exact fun h => hpk h.symm
          simp only [List.lookup_cons, hb, updateEntry_cons, if_neg hpk]
          exact ih
  · rw [lookup_updateEntry_ne _ _ _ _ hk]

lemma check_finish_L (f : HealthState → RequestState → CheckOut) (L1 : Limiter)
    (a : AttemptOut) (rs : RequestState) :
    (check_finish f L1 a rs).L = L1 ∨
    (check_finish f L1 a rs).L
      = (f { a.st with storage_dead := true } (applyView rs a.view)).L := by
  unfold check_finish
  cases herr : a.err with
  | none => exact Or.inl rfl
  | some e =>
      cases e with
      | rle l => exact Or.inl rfl
      | backendExn =>
          dsimp only
          split
          · exact Or.inr rfl
          · split
            · exact Or.inl rfl
            · exact Or.inl rfl
      | resolveExn e2 =>
          dsimp only
          split
          · exact Or.inr rfl
          · split
            · exact Or.inl rfl
            · exact Or.inl rfl

/-- The registration state that request handling must not change: equal
static registries, and dynamic route-limit registries equal up to the
per-request `request` slots of the stored groups. -/
def registryFrame (X Y : Limiter) : Prop :=
  X.route_limits = Y.route_limits ∧
  X.marked_for_limiting = Y.marked_for_limiting ∧
  X.exempt_routes = Y.exempt_routes ∧
  X.default_limits = Y.default_limits ∧
  X.application_limits = Y.application_limits ∧
  X.in_memory_fallback = Y.in_memory_fallback ∧
  ∀ k, ((X.dynamic_route_limits.lookup k).getD []).map eraseReq
      = ((Y.dynamic_route_limits.lookup k).getD []).map eraseReq

lemma registryFrame_refl (X : Limiter) : registryFrame X X :=
  ⟨rfl, rfl, rfl, rfl, rfl, rfl, fun _ => rfl⟩

lemma registryFrame_trans {X Y Z : Limiter} (h1 : registryFrame X Y)
    (h2 : registryFrame Y Z) : registryFrame X Z := by
  obtain ⟨a1, a2, a3, a4, a5, a6, a7⟩ := h1
  obtain ⟨b1, b2, b3, b4, b5, b6, b7⟩ := h2
  refine ⟨a1.trans b1, a2.trans b2, a3.trans b3, a4.trans b4, a5.trans b5,
    a6.trans b6, ?_⟩
  intro k
  exact (a7 k).trans (b7 k)

lemma check_finish_registryFrame (f : HealthState → RequestState → CheckOut)
    (L1 : Limiter) (a : AttemptOut) (rs : RequestState)
    (hf : ∀ st2 rs2, registryFrame ((f st2 rs2).L) L1) :
    registryFrame ((check_finish f L1 a rs).L) L1 := by
  rcases check_finish_L f L1 a rs with hL | hL
  · rw [hL]
    exact registryFrame_refl L1
  · rw [hL]
    exact hf _ _

lemma registryFrame_update (L : Limiter) (nm : String) (req : Request) :
    registryFrame
      { L with dynamic_route_limits :=
          (updateEntry L.dynamic_route_limits nm
            (gatherDynamic req
              ((L.dynamic_route_limits.lookup nm).getD [])).groups) }
      L := by
  refine ⟨rfl, rfl, rfl, rfl, rfl, rfl, ?_⟩
  intro k
  exact lookup_updateEntry_gather L.dynamic_route_limits nm req k

/-- C9 (amended): during request handling, `_check_request_limit` never
changes the static route-limit registry or any other registration state
(marked routes, exempt routes, default, application and fallback limit
lists), and changes the dynamic route-limit registry at most in the
per-request `request` slots of the registered LimitGroup objects — which
`with_request` does write on every resolution of a dynamic group (the point
on which the original claim fails); apart from those slots, only the
storage-health fields and request-scoped state mutate. -/
theorem c9_registry_frame_amended (fuel : Nat) (L : Limiter)
    (primary fb : Backend) (now : Nat) (req : Request) (ef : Option String)
    (mw : Bool) (st : HealthState) (rs : RequestState) :
    registryFrame
      (check_request_limit fuel L primary fb now req ef mw st rs).L L := by
  induction fuel generalizing L mw st rs with
  | zero => exact registryFrame_refl L
  | succ n ih =>
      unfold check_request_limit
      dsimp only
      split
      · exact registryFrame_refl L
      · split
        · exact check_finish_registryFrame _ _ _ _
            (fun st2 rs2 => ih L true st2 rs2)
        · split
          · exact registryFrame_update L (ef.getD "") req
          · exact registryFrame_trans
              (check_finish_registryFrame _ _ _ _
                (fun st2 rs2 => ih _ false st2 rs2))
              (registryFrame_update L (ef.getD "") req)

theorem c9_registry_frame_amended_witness :
    registryFrame
      (check_request_limit 5 Lc9 okB okB 0 reqW (some "m.d2") false st0 rs0).L
      Lc9 :=
  c9_registry_frame_amended 5 Lc9 okB okB 0 reqW (some "m.d2") false st0 rs0


/-- C10: the header-injection failover is gated on a non-empty explicit
fallback limit list, while the request-evaluation failover is gated on the
enabled flag: with in_memory_fallback_enabled set but no fallback limit
strings, a backend failure during header injection performs no failover
(storage_dead stays false, no retry) and the error is swallowed or re-raised
per swallow_errors, whereas the request-evaluation handler with the same
flags flips storage_dead and retries. -/
theorem c10_inject_failover_needs_fallback_list (L : Limiter)
    (primary fb : Backend) (dp : String → Option Int) (fd : Int → String)
    (now : Int) (h : Headers) (item : RateLimitItem) (args : List String)
    (st : HealthState) (fuel : Nat)
    (hen : L.enabled = true) (hhe : L.headers_enabled = true)
    (hfen : L.in_memory_fallback_enabled = true)
    (hfl : L.in_memory_fallback = [])
    (_halive : st.storage_dead = false)
    (hstats : (chooseBackend L st primary fb).get_window_stats item args
        = none) :
    ((inject_headers (fuel + 1) L primary fb dp fd now h (some (item, args))
          st).retried = false ∧
     (inject_headers (fuel + 1) L primary fb dp fd now h (some (item, args))
          st).st = st ∧
     (inject_headers (fuel + 1) L primary fb dp fd now h (some (item, args))
          st).err = (if L.swallow_errors then none else some ())) ∧
    (∀ (retry : HealthState → RequestState → CheckOut) (a : AttemptOut)
        (rs : RequestState),
        a.err = some TryErr.backendExn → a.st.storage_dead = false →
        (check_finish retry L a rs).retries
            = (retry { a.st with storage_dead := true }
                (applyView rs a.view)).retries + 1 ∧
        (check_finish retry L a rs).st
            = (retry { a.st with storage_dead := true }
                (applyView rs a.view)).st) := by
  constructor
  · have key : inject_headers (fuel + 1) L primary fb dp fd now h
        (some (item, args)) st
        = if L.swallow_errors then ⟨h, st, none, false⟩
          else ⟨h, st, some (), false⟩ := by
      unfold inject_headers
      simp only [hen, hhe, Bool.and_self, if_true, hstats, hfl,
        List.isEmpty_nil, Bool.not_true, Bool.false_and, Bool.false_eq_true,
        if_false]
    cases hsw : L.swallow_errors with
    | true => simp [key, hsw]
    | false => simp [key, hsw]
  · intro retry a rs ha hd
    unfold check_finish
    simp [ha, hfen, hd]

def aB : AttemptOut := ⟨st0, [], none, some TryErr.backendExn⟩

def L10 : Limiter :=
  { baseL with headers_enabled := true, in_memory_fallback_enabled := true }

theorem c10_inject_failover_needs_fallback_list_witness :
    (inject_headers 2 L10 boomB okB (fun _ => none) (fun i => toString i) 0 ⟨[]⟩
        (some (⟨5, 1, .minute, false⟩, ["k"])) st0).retried = false ∧
    (check_finish (fun _ _ => noopOut L10 stDead rs0) L10 aB rs0).retries
        = (noopOut L10 stDead rs0).retries + 1 :=
  ⟨(c10_inject_failover_needs_fallback_list L10 boomB okB (fun _ => none)
      (fun i => toString i) 0 ⟨[]⟩ ⟨5, 1, .minute, false⟩ ["k"] st0 1 rfl rfl rfl
      rfl rfl rfl).1.1,
   ((c10_inject_failover_needs_fallback_list L10 boomB okB (fun _ => none)
      (fun i => toString i) 0 ⟨[]⟩ ⟨5, 1, .minute, false⟩ ["k"] st0 1 rfl rfl rfl
      rfl rfl rfl).2 (fun _ _ => noopOut L10 stDead rs0) aB rs0 rfl rfl).1⟩

theorem c7_retry_after_never_shortened_witness :
    (inject_headers 3 L7 okB okB (fun _ => none) (fun i => toString i) 20 h7
        (some (⟨5, 1, .minute, false⟩, ["k", "s"])) st0).headers.get
        L7.header_retry_after
      = some (if L7.retry_after_style = some "http-date"
              then toString (max 70 (1 + 100))
              else toString (max (70 : Int) (1 + 100) - 20)) ∧
    (70 : Int) ≤ max 70 (1 + 100) ∧
    (inject_headers 3 L7 okB okB (fun _ => none) (fun i => toString i) 20 h7
        (some (⟨5, 1, .minute, false⟩, ["k", "s"])) st0).err = none :=
  c7_retry_after_never_shortened L7 okB okB (fun _ => none) (fun i => toString i)
    20 h7 ⟨5, 1, .minute, false⟩ ["k", "s"] st0 2 100 3 70 "50" rfl rfl rfl rfl
    (by decide) (by decide) (by decide) rfl

end Slowapi
